import Mathlib

/-!
# Verification of the shared-state orchestration layer of `bfcm`

Shallow embedding of `src/app.py` (FastAPI glue around a Redis-backed
session store, rate limiter, cache, task queue and WebSocket connection
registry) together with the parts of the orchestration layer
(`redis_manager`) that the repository's handlers call.

Python dictionaries are modelled as association lists with dict-update
semantics (assignment replaces the value of an existing key in place,
otherwise appends); Python values appearing in session records and cache
entries are modelled by the inductive `PyVal` with Python truthiness.
Exceptions are modelled by explicit outcome constructors; machine time is
an `Int` (seconds since epoch).
-/

namespace BFCM

/-- Model of a Python value as stored in session records / cache entries. -/
inductive PyVal where
  | noneV : PyVal
  | boolV (b : Bool) : PyVal
  | intV (n : Int) : PyVal
  | strV (s : String) : PyVal
  | listV (elems : List PyVal) : PyVal
  | dictV (entries : List (String × PyVal)) : PyVal
deriving Repr

/-- Python truthiness (`bool(v)`): `None`, `False`, `0`, `""`, `[]`, `{}` are falsy. -/
def PyVal.truthy : PyVal → Bool
  | .noneV => false
  | .boolV b => b
  | .intV n => n != 0
  | .strV s => !s.isEmpty
  | .listV es => !es.isEmpty
  | .dictV es => !es.isEmpty

/-- Coercion of a Python value to a number, as the `-` operator would
accept it (`bool` coerces, other non-numbers raise `TypeError`). -/
def pyNum : PyVal → Option Int
  | .intV n => some n
  | .boolV b => some (if b then 1 else 0)
  | _ => none

/-! ## Python dict model (association lists with dict-update semantics) -/

/-- `k in d` for a Python dict. -/
def dictContains [DecidableEq κ] (d : List (κ × α)) (k : κ) : Bool :=
  d.any (fun p => decide (p.1 = k))

/-- `d.get(k)` / `d[k]` lookup for a Python dict. -/
def dictFind [DecidableEq κ] (d : List (κ × α)) (k : κ) : Option α :=
  (d.find? (fun p => decide (p.1 = k))).map (·.2)

/-- `d[k] = v`: replace the value of an existing key in place, otherwise append. -/
def dictSet [DecidableEq κ] : List (κ × α) → κ → α → List (κ × α)
  | [], k, v => [(k, v)]
  | p :: d, k, v => if p.1 = k then (k, v) :: d else p :: dictSet d k v

/-- `del d[k]` (total: deleting an absent key leaves the dict unchanged). -/
def dictDelete [DecidableEq κ] (d : List (κ × α)) (k : κ) : List (κ × α) :=
  d.filter (fun p => decide (p.1 ≠ k))

section DictLemmas

variable {κ : Type} {α : Type} [DecidableEq κ]

theorem dictFind_dictSet_self (d : List (κ × α)) (k : κ) (v : α) :
    dictFind (dictSet d k v) k = some v := by
  induction d with
  | nil => simp [dictSet, dictFind, List.find?]
  | cons p d ih =>
    by_cases hp : p.1 = k
    · simp [dictSet, if_pos hp, dictFind, List.find?]
    · rw [dictSet, if_neg hp]
      unfold dictFind
      rw [List.find?_cons_of_neg _ (by simpa using hp)]
      exact ih

theorem dictFind_dictSet_ne (d : List (κ × α)) (k k' : κ) (v : α) (hne : k ≠ k') :
    dictFind (dictSet d k v) k' = dictFind d k' := by
  induction d with
  | nil => simp [dictSet, dictFind, List.find?, hne]
  | cons p d ih =>
    by_cases hp : p.1 = k
    · have hp' : ¬ p.1 = k' := fun hh => hne (hp ▸ hh ▸ rfl)
      rw [dictSet, if_pos hp]
      unfold dictFind
      rw [List.find?_cons_of_neg _ (by simpa using hne),
        List.find?_cons_of_neg _ (by simpa using hp')]
    · rw [dictSet, if_neg hp]
      by_cases hq : p.1 = k'
      · unfold dictFind
        rw [List.find?_cons_of_pos _ (by simpa using hq),
          List.find?_cons_of_pos _ (by simpa using hq)]
      · unfold dictFind
        rw [List.find?_cons_of_neg _ (by simpa using hq),
          List.find?_cons_of_neg _ (by simpa using hq)]
        exact ih

theorem dictFind_dictDelete_self (d : List (κ × α)) (k : κ) :
    dictFind (dictDelete d k) k = none := by
  induction d with
  | nil => rfl
  | cons p d ih =>
    unfold dictDelete at ih ⊢
    rw [List.filter_cons]
    by_cases hp : p.1 = k
    · rw [if_neg (by simp [hp])]
      exact ih
    · rw [if_pos (by simp [hp])]
      unfold dictFind
      rw [List.find?_cons_of_neg _ (by simpa using hp)]
      exact ih

theorem dictFind_nil (k : κ) : dictFind ([] : List (κ × α)) k = none := rfl

/-- Every key of `dictSet d k v` is a key of `d` or is `k`. -/
theorem mem_keys_dictSet (d : List (κ × α)) (k : κ) (v : α) (x : κ)
    (hx : x ∈ (dictSet d k v).map Prod.fst) :
    x ∈ d.map Prod.fst ∨ x = k := by
  induction d with
  | nil => simpa [dictSet] using hx
  | cons p d ih =>
    by_cases hp : p.1 = k
    · rw [dictSet, if_pos hp] at hx
      simp only [List.map_cons, List.mem_cons] at hx ⊢
      rcases hx with h | h
      · exact Or.inr h
      · exact Or.inl (Or.inr h)
    · rw [dictSet, if_neg hp] at hx
      simp only [List.map_cons, List.mem_cons] at hx ⊢
      rcases hx with h | h
      · exact Or.inl (Or.inl h)
      · rcases ih h with h2 | h2
        · exact Or.inl (Or.inr h2)
        · exact Or.inr h2

/-- Keys of a dict stay `Nodup` under `dictSet`. -/
theorem nodup_keys_dictSet (d : List (κ × α)) (k : κ) (v : α)
    (h : (d.map Prod.fst).Nodup) : ((dictSet d k v).map Prod.fst).Nodup := by
  induction d with
  | nil => simp [dictSet]
  | cons p d ih =>
    simp only [List.map_cons, List.nodup_cons] at h
    obtain ⟨hnm, hnd⟩ := h
    by_cases hp : p.1 = k
    · rw [dictSet, if_pos hp]
      simp only [List.map_cons, List.nodup_cons]
      exact ⟨hp ▸ hnm, hnd⟩
    · rw [dictSet, if_neg hp]
      simp only [List.map_cons, List.nodup_cons]
      refine ⟨fun hmem => ?_, ih hnd⟩
      rcases mem_keys_dictSet d k v p.1 hmem with h2 | h2
      · exact hnm h2
      · exact hp h2

/-- Keys of a dict stay `Nodup` under `dictDelete`. -/
theorem nodup_keys_dictDelete (d : List (κ × α)) (k : κ)
    (h : (d.map Prod.fst).Nodup) : ((dictDelete d k).map Prod.fst).Nodup := by
  unfold dictDelete
  exact ((List.filter_sublist d).map Prod.fst).nodup h

end DictLemmas

/-! ## Connection Registry (`ConnectionManager`, app.py lines 112-128)

Transport handles (`WebSocket` objects) are abstracted as natural numbers;
the registry never inspects them. -/

/-- A live transport handle (opaque to the registry). -/
abbrev WS := Nat

/-- `ConnectionManager.active_connections`, a Python dict from client id
to WebSocket handle. -/
structure ConnectionManager where
  active_connections : List (String × WS)
deriving Repr

namespace ConnectionManager

/-- `ConnectionManager.connect(websocket, client_id)` (app.py 116-118):
`self.active_connections[client_id] = websocket` — a plain dict
assignment, replacing any handle previously stored for `client_id`.
(The `websocket.accept()` handshake is a transport effect outside the
registry state.) -/
def connect (m : ConnectionManager) (websocket : WS) (client_id : String) :
    ConnectionManager :=
  ⟨dictSet m.active_connections client_id websocket⟩

/-- `ConnectionManager.disconnect(client_id)` (app.py 120-122):
`if client_id in self.active_connections: del self.active_connections[client_id]`. -/
def disconnect (m : ConnectionManager) (client_id : String) : ConnectionManager :=
  if dictContains m.active_connections client_id then
    ⟨dictDelete m.active_connections client_id⟩
  else m

/-- Registry lookup (`self.active_connections[client_id]` guarded by `in`). -/
def lookup (m : ConnectionManager) (client_id : String) : Option WS :=
  dictFind m.active_connections client_id

/-- The value a Python function call evaluates to: `None` for an implicit
return, or a boolean. -/
inductive PyRet where
  | noneRet : PyRet
  | boolRet (b : Bool) : PyRet
deriving Repr, DecidableEq

/-- `ConnectionManager.send_message(message, client_id)` (app.py 124-126):
```
if client_id in self.active_connections:
    await self.active_connections[client_id].send_json(message)
```
The first component records the delivery performed (handle it was sent
through, and the message), `none` when the id is unregistered; the second
component is the value the call returns — there is no `return` statement
on either path, so the function always evaluates to `None`. -/
def send_message (m : ConnectionManager) (message : PyVal) (client_id : String) :
    Option (WS × PyVal) × PyRet :=
  match m.lookup client_id with
  | some ws => (some (ws, message), .noneRet)
  | none => (none, .noneRet)

end ConnectionManager

/-- One registry operation, as issued by the WebSocket endpoint handlers. -/
inductive CMOp where
  | connect (websocket : WS) (client_id : String) : CMOp
  | disconnect (client_id : String) : CMOp

/-- Apply one registry operation. -/
def applyCMOp (m : ConnectionManager) : CMOp → ConnectionManager
  | .connect w c => m.connect w c
  | .disconnect c => m.disconnect c

/-- Apply a sequence of registry operations, starting from `m`. -/
def applyCMOps (m : ConnectionManager) (ops : List CMOp) : ConnectionManager :=
  ops.foldl applyCMOp m

/-! ## Session validation (`get_current_user`, app.py lines 163-193)

`redis_manager.validate_session` lives outside `src/`; `get_current_user`
is proved for every possible outcome of that call — it may return a
`(is_valid, session_data)` pair with arbitrary contents, or raise.  The
whole body of `get_current_user` sits in a `try` whose `except` clause
converts any exception into the same invalid-session outcome, which the
embedding reflects by explicit `raises` outcomes. -/

/-- Outcome of the `redis_manager.validate_session(session_id)` call:
either it returns a pair `(is_valid, session_data)`, or it raises
(e.g. the store read failed). -/
inductive ValidateOutcome where
  | returns (is_valid : Bool) (session_data : PyVal) : ValidateOutcome
  | raises : ValidateOutcome

/-- Result of `get_current_user`: the session claims dict, a `None`
return (when `return_none` is set), or an `HTTPException` with a status
code. -/
inductive AuthResult where
  | user (session_data : PyVal) : AuthResult
  | noneResult : AuthResult
  | httpError (code : Nat) : AuthResult
deriving Repr

/-- The refresh trigger condition of app.py line 185:
`current_time - last_refresh > SESSION_REFRESH_THRESHOLD`. -/
def needs_refresh (current_time last_refresh threshold : Int) : Bool :=
  decide (current_time - last_refresh > threshold)

/-- `get_current_user(request, return_none)` (app.py 163-193).

Inputs: the `session_id` cookie (absent = `none`), the outcome of
`validate_session`, whether the `refresh_session` call raises, the
`return_none` flag, the current time and `SESSION_REFRESH_THRESHOLD`.

Output: the `AuthResult` paired with whether a refresh was triggered
(i.e. `redis_manager.refresh_session` was called).  The function is
total: every exception path of the original is caught by its `except`
clause and lands in `noneResult`/`httpError 401`. -/
def get_current_user (session_id : Option String) (validate : ValidateOutcome)
    (refresh_raises return_none : Bool) (current_time threshold : Int) :
    AuthResult × Bool :=
  let fail : AuthResult := if return_none then .noneResult else .httpError 401
  match session_id with
  | none => (fail, false)
  | some sid =>
    if sid.isEmpty then (fail, false)
    else
      match validate with
      | .raises => (fail, false)
      | .returns is_valid data =>
        if !is_valid || !data.truthy then (fail, false)
        else
          match data with
          | .dictV entries =>
            if !dictContains entries "id" then (fail, false)
            else
              match pyNum ((dictFind entries "last_refresh").getD (.intV 0)) with
              | none => (fail, false)
              | some last_refresh =>
                if needs_refresh current_time last_refresh threshold then
                  if refresh_raises then (fail, true)
                  else (.user (.dictV entries), true)
                else (.user (.dictV entries), false)
          | _ => (fail, false)

/-- A stored session record, as acted on by the sliding-refresh logic;
only the `last_refresh` watermark matters to the refresh claims. -/
structure SessionRecord where
  last_refresh : Int
deriving Repr, DecidableEq

/-- Modelled from the spec: `redis_manager.refresh_session` is not under
`src/`; per the spec, `refresh(session_key)` re-writes the record with
the same TTL and an updated `last_refresh`. -/
def refresh_session (current_time : Int) (r : SessionRecord) : SessionRecord :=
  { r with last_refresh := current_time }

/-- The effect of one `get_current_user` call on a valid session record:
app.py line 185 triggers `refresh_session` iff
`current_time - last_refresh > SESSION_REFRESH_THRESHOLD`, otherwise the
record is untouched. -/
def validate_touch (threshold current_time : Int) (r : SessionRecord) :
    SessionRecord :=
  if needs_refresh current_time r.last_refresh threshold then
    refresh_session current_time r
  else r

/-! ## Cache Manager (spec section 4.4; call sites app.py 328-337, 345-354, 476-477) -/

/-- The cache portion of the backing store: cache key to stored payload. -/
abbrev CacheStore := List (String × PyVal)

/-- Modelled from the spec: `redis_manager.get_cache` is not under
`src/`; per the spec Store Adapter / Cache Manager contract,
`get(key) -> value|absent`. -/
def get_cache (s : CacheStore) (key : String) : Option PyVal :=
  dictFind s key

/-- Modelled from the spec: `redis_manager.set_cache` is not under
`src/`; `set(key, value, ttl)` writes the entry (TTL expiry is passive
and not modelled). -/
def set_cache (s : CacheStore) (key : String) (value : PyVal) : CacheStore :=
  dictSet s key value

/-- Modelled from the spec: `redis_manager.invalidate_cache` is not
under `src/`; `invalidate(key)` removes the key — "either the key is
gone or the call fails"; a successful return means the key is deleted. -/
def invalidate_cache (s : CacheStore) (key : String) : CacheStore :=
  dictDelete s key

/-- A cache mutation issued by some caller. -/
inductive CacheOp where
  | set (key : String) (value : PyVal) : CacheOp
  | invalidate (key : String) : CacheOp
deriving Repr

/-- Apply one cache mutation. -/
def applyCacheOp (s : CacheStore) : CacheOp → CacheStore
  | .set k v => set_cache s k v
  | .invalidate k => invalidate_cache s k

/-- Apply a sequence of cache mutations, oldest first. -/
def applyCacheOps (s : CacheStore) (ops : List CacheOp) : CacheStore :=
  ops.foldl applyCacheOp s

/-- The cache key of app.py lines 328 and 476: `f"chat_history:{user['id']}"`. -/
def chat_history_key (user_id : String) : String :=
  "chat_history:" ++ user_id

/-- The cache key of app.py line 345: `f"video_history:{user['id']}"`. -/
def video_history_key (user_id : String) : String :=
  "video_history:" ++ user_id

/-- The cache effect of `send_message` (app.py 476-477): after the new
chat messages are persisted, the user's chat-history cache key is
invalidated. -/
def send_message_cache_effect (user_id : String) (s : CacheStore) : CacheStore :=
  invalidate_cache s (chat_history_key user_id)

/-- The read path of `get_chat_history_endpoint` (app.py 322-337) after
authentication: read the cache; a truthy cached value is served as is;
otherwise the history is recomputed from the datastore (`db_history`),
written back to the cache, and served.  `get_cache` yielding `absent` is
Python `None`.  Returns the served history and the resulting store. -/
def get_chat_history_endpoint (s : CacheStore) (user_id : String)
    (db_history : PyVal) : PyVal × CacheStore :=
  let cache_key := chat_history_key user_id
  let cached_history := (get_cache s cache_key).getD .noneV
  if cached_history.truthy then (cached_history, s)
  else (db_history, set_cache s cache_key db_history)

/-- The read path of `get_video_analysis_history_endpoint`
(app.py 339-354) after authentication; identical to the chat-history
read path, with the `video_history` cache key. -/
def get_video_analysis_history_endpoint (s : CacheStore) (user_id : String)
    (db_history : PyVal) : PyVal × CacheStore :=
  let cache_key := video_history_key user_id
  let cached_history := (get_cache s cache_key).getD .noneV
  if cached_history.truthy then (cached_history, s)
  else (db_history, set_cache s cache_key db_history)

/-! ## Rate Limiter (spec section 4.3; call site app.py line 203) -/

/-- A rate-limit counter key: (action name, client identity, window index). -/
abbrev RLKey := String × String × Nat

/-- The rate limiter's counters, keyed per (action, client, window). -/
structure RateLimiterState where
  counters : List (RLKey × Nat)
deriving Repr

/-- Modelled from the spec: `redis_manager.check_rate_limit` is not
under `src/`; per the spec it implements a fixed-window counter —
"increments a counter keyed by (action, client_identity, current window
index), created with TTL = window length if absent; allowed iff the
post-increment count is ≤ max_requests".  The window index of a call at
time `now` is `now / window`; keying by window index makes an expired
window's counter unreachable, which models the TTL.  Returns the
allowed/denied verdict and the updated counters. -/
def check_rate_limit (st : RateLimiterState) (action client : String)
    (max_requests window now : Nat) : Bool × RateLimiterState :=
  let key : RLKey := (action, client, now / window)
  let count := (dictFind st.counters key).getD 0 + 1
  (decide (count ≤ max_requests), ⟨dictSet st.counters key count⟩)

/-- `n` consecutive `check_rate_limit` calls for the same action and
client at the same time `now`; returns the verdict of the last call
(`true` when `n = 0`) and the final state. -/
def repeat_checks (st : RateLimiterState) (action client : String)
    (max_requests window now : Nat) : Nat → Bool × RateLimiterState
  | 0 => (true, st)
  | n + 1 =>
    let st1 := (repeat_checks st action client max_requests window now n).2
    check_rate_limit st1 action client max_requests window now

/-! ## Task Queue (spec section 4.5; call sites app.py 435-443, 452-461) -/

/-- The task types enqueued by `send_message`
(`TaskType.VIDEO_PROCESSING`, `TaskType.VIDEO_ANALYSIS`). -/
inductive TaskType where
  | video_processing : TaskType
  | video_analysis : TaskType
deriving Repr, DecidableEq

/-- `TaskPriority` (HIGH is retrieved before MEDIUM before LOW). -/
inductive TaskPriority where
  | high : TaskPriority
  | medium : TaskPriority
  | low : TaskPriority
deriving Repr, DecidableEq

/-- Numeric rank of a priority: lower rank is retrieved first. -/
def TaskPriority.rank : TaskPriority → Nat
  | .high => 0
  | .medium => 1
  | .low => 2

/-- A queued task: type, payload, priority, and the monotonically
increasing sequence number attached at enqueue time (also serving as
the generated task id in this model). -/
structure Task where
  task_type : TaskType
  payload : PyVal
  priority : TaskPriority
  seq : Nat
deriving Repr

/-- Queue state: the enqueued tasks plus the next sequence number. -/
structure TaskQueue where
  tasks : List Task
  next_seq : Nat
deriving Repr

/-- The empty task queue. -/
def TaskQueue.empty : TaskQueue := ⟨[], 0⟩

/-- Modelled from the spec: `redis_manager.enqueue_task` is not under
`src/`; per the spec, `enqueue(task_type, payload, priority) -> task_id`
attaches a fresh, monotonically increasing sequence number to the task
and hands it to the queue.  Returns the task id and the new state. -/
def enqueue_task (q : TaskQueue) (task_type : TaskType) (payload : PyVal)
    (priority : TaskPriority) : Nat × TaskQueue :=
  (q.next_seq,
    ⟨q.tasks ++ [⟨task_type, payload, priority, q.next_seq⟩], q.next_seq + 1⟩)

/-- Enqueue a list of tasks in order. -/
def enqueue_list (q : TaskQueue) : List (TaskType × PyVal × TaskPriority) → TaskQueue
  | [] => q
  | (t, pl, pr) :: rest => enqueue_list (enqueue_task q t pl pr).2 rest

/-- Retrieval order: priority rank first, enqueue sequence number second. -/
def taskLE (a b : Task) : Prop :=
  a.priority.rank < b.priority.rank ∨
    (a.priority.rank = b.priority.rank ∧ a.seq ≤ b.seq)

instance : DecidableRel taskLE := fun a b => by
  unfold taskLE; infer_instance

instance : IsTotal Task taskLE where
  total a b := by
    unfold taskLE
    rcases Nat.lt_trichotomy a.priority.rank b.priority.rank with h | h | h
    · exact Or.inl (Or.inl h)
    · rcases Nat.le_total a.seq b.seq with hs | hs
      · exact Or.inl (Or.inr ⟨h, hs⟩)
      · exact Or.inr (Or.inr ⟨h.symm, hs⟩)
    · exact Or.inr (Or.inl h)

instance : IsTrans Task taskLE where
  trans a b c hab hbc := by
    unfold taskLE at hab hbc ⊢
    rcases hab with h1 | ⟨h1, s1⟩
    · rcases hbc with h2 | ⟨h2, _⟩
      · exact Or.inl (h1.trans h2)
      · exact Or.inl (h2 ▸ h1)
    · rcases hbc with h2 | ⟨h2, s2⟩
      · exact Or.inl (h1 ▸ h2)
      · exact Or.inr ⟨h1.trans h2, s1.trans s2⟩

/-- Modelled from the spec: the queue's retrieval contract — "a task
submitted successfully is retrievable in the documented order": priority
rank first, enqueue sequence number (FIFO) within equal priority. -/
def retrieve_order (q : TaskQueue) : List Task :=
  q.tasks.insertionSort taskLE

/-! ## Login (`login_post`, app.py lines 195-254) -/

/-- The response of `login_post` as far as the session-cookie contract
is concerned: HTTP status, the JSON `success` flag, and the
`session_id` cookie value if one is attached. -/
structure LoginResponse where
  status : Nat
  success : Bool
  cookie : Option String
deriving Repr, DecidableEq

/-- `login_post` (app.py 195-254), with the outward calls abstracted to
their outcomes: `rate_ok` — `check_rate_limit("login", host)` allowed;
`auth_ok` — `supabase.auth.sign_in_with_password` returned a user (a
raising call is `auth_ok = false`, both paths end in the 400 response);
`db_raises` — `get_user_by_email` / `create_user` raised;
`set_session_ok` — `redis_manager.set_session(session_id, data,
SESSION_LIFETIME)` confirmed the write.

Every raised `HTTPException` (429 rate-limited, 500 session-write
failure) is caught by the function's own `except Exception` clause,
which returns a 400 JSON error response; no cookie is attached on any
of those paths.  The cookie is set (max_age = SESSION_LIFETIME) only
after `set_session` returned truthy. -/
def login_post (rate_ok auth_ok : Bool) (db_raises : Bool)
    (session_id : String) (set_session_ok : Bool) : LoginResponse :=
  if !rate_ok then ⟨400, false, none⟩
  else if !auth_ok then ⟨400, false, none⟩
  else if db_raises then ⟨400, false, none⟩
  else if !set_session_ok then ⟨400, false, none⟩
  else ⟨200, true, some session_id⟩

/-! ## Session sweep loop (`startup_event.cleanup_sessions`, app.py 67-77)

```
async def cleanup_sessions():
    while True:
        await redis_manager.cleanup_expired_sessions()
        await asyncio.sleep(SESSION_CLEANUP_INTERVAL)
```

The loop body has no exception handling: iteration `n` awaits one sweep
and then sleeps for the fixed interval; if the sweep raises, the
exception propagates out of the coroutine and the background task
terminates, so no later iteration runs.  Iterations are strictly
sequential (each sweep is awaited before the next starts).
`sweep_raises n` says whether the sweep of iteration `n` would raise. -/

/-- Whether iteration `n` of the sweep loop starts running: iteration 0
always starts; iteration `n + 1` starts iff iteration `n` started and
its sweep returned without raising. -/
def loop_runs (sweep_raises : Nat → Bool) : Nat → Bool
  | 0 => true
  | n + 1 => loop_runs sweep_raises n && !sweep_raises n

/-- A sweep that raises on every iteration. -/
def always_failing_sweep : Nat → Bool := fun _ => true

/-! ## Helper lemmas -/

/-- `dictFind` of `dictDelete` at a different key is unchanged. -/
theorem dictFind_dictDelete_ne {κ α : Type} [DecidableEq κ]
    (d : List (κ × α)) (k k' : κ) (hne : k ≠ k') :
    dictFind (dictDelete d k) k' = dictFind d k' := by
  induction d with
  | nil => rfl
  | cons p d ih =>
    unfold dictDelete at ih ⊢
    rw [List.filter_cons]
    by_cases hp : p.1 = k
    · rw [if_neg (by simp [hp])]
      unfold dictFind
      rw [List.find?_cons_of_neg _ (by simp [hp, hne])]
      exact ih
    · rw [if_pos (by simp [hp])]
      by_cases hq : p.1 = k'
      · unfold dictFind
        rw [List.find?_cons_of_pos _ (by simpa using hq),
          List.find?_cons_of_pos _ (by simpa using hq)]
      · unfold dictFind
        rw [List.find?_cons_of_neg _ (by simpa using hq),
          List.find?_cons_of_neg _ (by simpa using hq)]
        exact ih

/-- One registry operation keeps the client-id keys `Nodup`. -/
theorem nodup_keys_applyCMOp (m : ConnectionManager) (op : CMOp)
    (h : (m.active_connections.map Prod.fst).Nodup) :
    ((applyCMOp m op).active_connections.map Prod.fst).Nodup := by
  cases op with
  | connect w c => exact nodup_keys_dictSet _ _ _ h
  | disconnect c =>
    show ((ConnectionManager.disconnect m c).active_connections.map Prod.fst).Nodup
    unfold ConnectionManager.disconnect
    by_cases hc : dictContains m.active_connections c = true
    · rw [if_pos hc]
      exact nodup_keys_dictDelete _ _ h
    · rw [if_neg hc]
      exact h

/-- Any sequence of registry operations keeps the client-id keys `Nodup`. -/
theorem nodup_keys_applyCMOps (ops : List CMOp) (m : ConnectionManager)
    (h : (m.active_connections.map Prod.fst).Nodup) :
    ((applyCMOps m ops).active_connections.map Prod.fst).Nodup := by
  induction ops generalizing m with
  | nil => exact h
  | cons op ops ih =>
    simp only [applyCMOps, List.foldl_cons]
    exact ih _ (nodup_keys_applyCMOp m op h)

/-! ## Claims -/

/-- C6: the connection registry maps each client id to at most one
handle — starting from the empty registry, the registered client ids
are duplicate-free after every sequence of connect/disconnect
operations; after `connect(websocket, c)` the map holds exactly that
handle for `c` (the total `connect` replaces a previous handle without
error), and a subsequent `send_message` to `c` delivers only via the
newly registered handle. -/
theorem c6_registry_at_most_one_handle :
    (∀ ops : List CMOp,
        ((applyCMOps ⟨[]⟩ ops).active_connections.map Prod.fst).Nodup) ∧
    (∀ (m : ConnectionManager) (w : WS) (c : String),
        (m.connect w c).lookup c = some w) ∧
    (∀ (m : ConnectionManager) (w : WS) (c : String) (msg : PyVal),
        ((m.connect w c).send_message msg c).1 = some (w, msg)) := by
  have hlookup : ∀ (m : ConnectionManager) (w : WS) (c : String),
      (m.connect w c).lookup c = some w := by
    intro m w c
    exact dictFind_dictSet_self m.active_connections c w
  refine ⟨fun ops => nodup_keys_applyCMOps ops ⟨[]⟩ (by simp), hlookup, ?_⟩
  intro m w c msg
  unfold ConnectionManager.send_message
  rw [hlookup m w c]

/-- C7 counterexample: the claim says `send_message` on an unregistered
client id returns the boolean `False`; the code's `send_message`
(app.py 124-126) has no `return` statement on either path, so the call
evaluates to Python `None`, which is not the boolean `False`. -/
theorem c7_send_returns_none_counterexample :
    ((ConnectionManager.mk []).send_message .noneV "c1").2
        = ConnectionManager.PyRet.noneRet ∧
    ConnectionManager.PyRet.noneRet ≠ ConnectionManager.PyRet.boolRet false :=
  ⟨rfl, by decide⟩

/-- C7 (amended): for every client id with no registered handle,
`send_message` performs no delivery, returns `None` (not a boolean) and
does not raise; for every registered client id it delivers the message
via the registered handle (and likewise returns `None`). -/
theorem c7_send_silently_drops_when_absent :
    ∀ (m : ConnectionManager) (msg : PyVal) (c : String),
      m.send_message msg c
        = ((m.lookup c).map (fun ws => (ws, msg)),
            ConnectionManager.PyRet.noneRet) := by
  intro m msg c
  unfold ConnectionManager.send_message
  cases m.lookup c <;> rfl

/-- C8 counterexample: the claim says a failure raised by
`cleanup_expired_sessions` in iteration `n` still lets iteration `n + 1`
run; with a sweep that raises on every iteration, iteration 0 runs and
its sweep raises, yet iteration 1 never runs — the loop body
(app.py 72-77) has no exception handling, so the raised exception
terminates the background task. -/
theorem c8_sweep_loop_counterexample :
    loop_runs always_failing_sweep 0 = true ∧
    always_failing_sweep 0 = true ∧
    loop_runs always_failing_sweep 1 = false :=
  ⟨rfl, rfl, rfl⟩

/-- C8 (amended): sweep iterations are strictly sequential (iteration
`n + 1` starts only after iteration `n`'s sweep returned, so at most one
sweep runs at a time), and iteration `n` runs iff every earlier sweep
completed without raising: one raising sweep terminates the loop and no
later iteration ever runs. -/
theorem c8_sweep_loop_stops_on_failure :
    ∀ (sweep_raises : Nat → Bool) (n : Nat),
      loop_runs sweep_raises (n + 1)
          = (loop_runs sweep_raises n && !sweep_raises n) ∧
      loop_runs sweep_raises n
          = (List.range n).all (fun m => !sweep_raises m) := by
  intro f n
  refine ⟨rfl, ?_⟩
  induction n with
  | zero => rfl
  | succ n ih =>
    rw [loop_runs, ih, List.range_succ, List.all_append]
    simp

/-- C1: for every session key, `get_current_user` on a session whose
validation reports it absent or invalid (deleted / never created), whose
record is malformed (`session_data` not a dict, or missing the `id`
field), or whose store read raises, reports the session invalid —
`None` when `return_none` is set, otherwise a 401 outcome — and never
propagates an unhandled exception: every raising path of the original is
caught by its `except` clause and lands in the same outcome, which the
total embedding reflects. -/
theorem c1_get_current_user_invalid_never_raises
    (sid : String) (validate : ValidateOutcome)
    (refresh_raises return_none : Bool) (current_time threshold : Int)
    (hsid : sid.isEmpty = false)
    (hbad : validate = ValidateOutcome.raises ∨
      ∃ v d, validate = ValidateOutcome.returns v d ∧
        (v = false ∨ d.truthy = false ∨
          (∀ entries, d ≠ PyVal.dictV entries) ∨
          ∃ entries, d = PyVal.dictV entries ∧
            dictContains entries "id" = false)) :
    get_current_user (some sid) validate refresh_raises return_none
        current_time threshold
      = (if return_none then AuthResult.noneResult else AuthResult.httpError 401,
          false) := by
  rcases hbad with h | ⟨v, d, hv, hcase⟩
  · subst h
    simp [get_current_user, hsid]
  · subst hv
    rcases hcase with h | h | h | ⟨entries, hd, hid⟩
    · subst h
      simp [get_current_user, hsid]
    · cases v <;> simp [get_current_user, hsid, h]
    · cases d with
      | dictV es => exact absurd rfl (h es)
      | noneV =>
        cases v <;> simp [get_current_user, hsid, PyVal.truthy]
      | boolV b =>
        cases v <;> cases b <;> simp [get_current_user, hsid, PyVal.truthy]
      | intV n =>
        cases v <;> by_cases hn : (n != 0) = true <;>
          simp [get_current_user, hsid, PyVal.truthy, hn]
      | strV str =>
        cases v <;> by_cases hstr : str.isEmpty <;>
          simp [get_current_user, hsid, PyVal.truthy, hstr]
      | listV es =>
        cases v <;> by_cases hes : es.isEmpty <;>
          simp [get_current_user, hsid, PyVal.truthy, hes]
    · subst hd
      cases v
      · simp [get_current_user, hsid]
      · by_cases ht : (PyVal.dictV entries).truthy = true
        · simp [get_current_user, hsid, ht, hid]
        · simp [get_current_user, hsid, ht]

/-- C1 witness: a validator that reports the session invalid yields the
401 outcome. -/
theorem c1_witness :
    get_current_user (some "s") (ValidateOutcome.returns false PyVal.noneV)
        false false 0 0
      = (AuthResult.httpError 401, false) :=
  c1_get_current_user_invalid_never_raises "s" _ false false 0 0 rfl
    (Or.inr ⟨false, PyVal.noneV, rfl, Or.inl rfl⟩)

/-- C2: on a valid session carrying `last_refresh = t`, a
`get_current_user` call at time `now` triggers `refresh_session` iff
`now - t > SESSION_REFRESH_THRESHOLD`; and in the two-call scenario —
first call past the threshold, second call within it — the
`last_refresh` watermark advances exactly once: the first call sets it
to `now1` (a strict advance past `t`), the second leaves it at `now1`. -/
theorem c2_refresh_iff_past_threshold
    (sid : String) (entries : List (String × PyVal))
    (t threshold now1 now2 : Int) (refresh_raises return_none : Bool)
    (hsid : sid.isEmpty = false)
    (hid : dictContains entries "id" = true)
    (hlr : dictFind entries "last_refresh" = some (PyVal.intV t))
    (h1 : now1 - t > threshold) (h2 : now2 - now1 ≤ threshold)
    (hT : 0 ≤ threshold) :
    (∀ now : Int,
      (get_current_user (some sid)
          (ValidateOutcome.returns true (PyVal.dictV entries))
          refresh_raises return_none now threshold).2 = true
        ↔ now - t > threshold) ∧
    (validate_touch threshold now1 ⟨t⟩).last_refresh = now1 ∧
    t < now1 ∧
    (validate_touch threshold now2 (validate_touch threshold now1 ⟨t⟩)).last_refresh
        = now1 := by
  have hne : entries ≠ [] := by
    intro h
    rw [h] at hid
    simp [dictContains] at hid
  have htr : (PyVal.dictV entries).truthy = true := by
    simp [PyVal.truthy, hne]
  have htouch1 : validate_touch threshold now1 ⟨t⟩ = ⟨now1⟩ := by
    unfold validate_touch
    rw [if_pos (by simp [needs_refresh, h1])]
    rfl
  refine ⟨?_, ?_, ?_, ?_⟩
  · intro now
    by_cases hr : needs_refresh now t threshold = true
    · cases refresh_raises <;>
        simp [get_current_user, hsid, htr, hid, hlr, pyNum,
          needs_refresh, decide_eq_true_eq] at hr ⊢ <;>
        simp [hr]
    · simp only [Bool.not_eq_true] at hr
      simp [get_current_user, hsid, htr, hid, hlr, pyNum, hr]
      simp [needs_refresh, decide_eq_true_eq] at hr
      omega
  · rw [htouch1]
  · omega
  · rw [htouch1]
    unfold validate_touch
    rw [if_neg (by simp [needs_refresh]; omega)]

/-- C2 witness: threshold 10, session last refreshed at 0, calls at
times 20 and 25 — the watermark moves to 20 and then stays. -/
theorem c2_witness :
    (validate_touch 10 20 ⟨0⟩).last_refresh = 20 ∧ (0 : Int) < 20 ∧
    (validate_touch 10 25 (validate_touch 10 20 ⟨0⟩)).last_refresh = 20 ∧
    ((get_current_user (some "s")
        (ValidateOutcome.returns true
          (PyVal.dictV [("id", PyVal.strV "u"), ("last_refresh", PyVal.intV 0)]))
        false false 20 10).2 = true ↔ (20 : Int) - 0 > 10) := by
  have h := c2_refresh_iff_past_threshold "s"
    [("id", PyVal.strV "u"), ("last_refresh", PyVal.intV 0)]
    0 10 20 25 false false rfl (by decide) (by simp [dictFind, List.find?])
    (by decide) (by decide) (by decide)
  exact ⟨h.2.1, h.2.2.1, h.2.2.2, h.1 20⟩

/-- C9: in `login_post`, when the session write cannot be confirmed
(`set_session` returns false) the raised 500 is caught by the handler's
own `except` clause and surfaced as an error response (status 400,
`success: false`) with no session cookie; conversely a response that
carries the session cookie can only arise on the path where rate
limiting, authentication and the session write all succeeded, and is
the 200 success response. -/
theorem c9_login_cookie_only_after_session_write
    (rate_ok auth_ok db_raises : Bool) (sid : String) (set_ok : Bool) :
    login_post rate_ok auth_ok db_raises sid false
        = ⟨400, false, none⟩ ∧
    ((login_post rate_ok auth_ok db_raises sid set_ok).cookie.isSome = true →
      set_ok = true ∧ rate_ok = true ∧ auth_ok = true ∧ db_raises = false ∧
        login_post rate_ok auth_ok db_raises sid set_ok
          = ⟨200, true, some sid⟩) := by
  constructor
  · cases rate_ok <;> cases auth_ok <;> cases db_raises <;> rfl
  · intro h
    cases rate_ok <;> cases auth_ok <;> cases db_raises <;> cases set_ok <;>
      simp_all [login_post]

/-- C9 witness: a successful login carries the cookie and every
precondition held; a failed session write at the same inputs yields the
cookie-less error response. -/
theorem c9_witness :
    login_post true true false "sid0" false = ⟨400, false, none⟩ ∧
    login_post true true false "sid0" true = ⟨200, true, some "sid0"⟩ := by
  have h := c9_login_cookie_only_after_session_write true true false "sid0" true
  exact ⟨(c9_login_cookie_only_after_session_write true true false "sid0" false).1,
    (h.2 rfl).2.2.2.2⟩

/-- C10: in the chat-history and video-analysis-history read paths, a
cached value that is falsy (absent — Python `None` — or an empty list)
is treated as a cache miss: the history is recomputed from the
datastore and rewritten to the cache; the cached value is served, with
the cache left untouched, only when it is truthy, and a truthy list is
non-empty. -/
theorem c10_falsy_cache_is_miss (s : CacheStore) (user_id : String)
    (db_history : PyVal) :
    (((get_cache s (chat_history_key user_id)).getD .noneV).truthy = false →
      get_chat_history_endpoint s user_id db_history
        = (db_history, set_cache s (chat_history_key user_id) db_history)) ∧
    (((get_cache s (chat_history_key user_id)).getD .noneV).truthy = true →
      get_chat_history_endpoint s user_id db_history
        = ((get_cache s (chat_history_key user_id)).getD .noneV, s)) ∧
    (((get_cache s (video_history_key user_id)).getD .noneV).truthy = false →
      get_video_analysis_history_endpoint s user_id db_history
        = (db_history, set_cache s (video_history_key user_id) db_history)) ∧
    (((get_cache s (video_history_key user_id)).getD .noneV).truthy = true →
      get_video_analysis_history_endpoint s user_id db_history
        = ((get_cache s (video_history_key user_id)).getD .noneV, s)) ∧
    PyVal.noneV.truthy = false ∧ (PyVal.listV []).truthy = false ∧
    (∀ elems : List PyVal, (PyVal.listV elems).truthy = true → elems ≠ []) := by
  refine ⟨?_, ?_, ?_, ?_, rfl, rfl, ?_⟩
  · intro h
    simp [get_chat_history_endpoint, h]
  · intro h
    simp [get_chat_history_endpoint, h]
  · intro h
    simp [get_video_analysis_history_endpoint, h]
  · intro h
    simp [get_video_analysis_history_endpoint, h]
  · intro elems h
    simpa [PyVal.truthy] using h

/-- C10 witness: with an empty cache the chat-history read recomputes
from the datastore and writes the result back. -/
theorem c10_witness :
    get_chat_history_endpoint [] "u1" (PyVal.listV [PyVal.strV "m"])
      = (PyVal.listV [PyVal.strV "m"],
          set_cache [] (chat_history_key "u1") (PyVal.listV [PyVal.strV "m"])) :=
  (c10_falsy_cache_is_miss [] "u1" (PyVal.listV [PyVal.strV "m"])).1 rfl

/-- After any sequence of cache mutations, a value observed at `key`
either was already there before the sequence or was written by one of
the mutations in it. -/
theorem get_cache_applyCacheOps (ops : List CacheOp) (s : CacheStore)
    (key : String) (v : PyVal)
    (h : get_cache (applyCacheOps s ops) key = some v) :
    get_cache s key = some v ∨ CacheOp.set key v ∈ ops := by
  induction ops generalizing s with
  | nil => exact Or.inl h
  | cons op ops ih =>
    rcases ih (applyCacheOp s op) h with h1 | h1
    · cases op with
      | set k w =>
        by_cases hk : k = key
        · subst hk
          rw [show get_cache (applyCacheOp s (CacheOp.set k w)) k = some w from
            dictFind_dictSet_self s k w] at h1
          injection h1 with h2
          rw [← h2]
          exact Or.inr (List.mem_cons_self _ _)
        · left
          rwa [show get_cache (applyCacheOp s (CacheOp.set k w)) key
              = get_cache s key from dictFind_dictSet_ne s k key w hk] at h1
      | invalidate k =>
        by_cases hk : k = key
        · subst hk
          rw [show get_cache (applyCacheOp s (CacheOp.invalidate k)) k = none from
            dictFind_dictDelete_self s k] at h1
          exact Option.noConfusion h1
        · left
          rwa [show get_cache (applyCacheOp s (CacheOp.invalidate k)) key
              = get_cache s key from dictFind_dictDelete_ne s k key hk] at h1
    · exact Or.inr (List.mem_cons_of_mem _ h1)

/-- C3: once `invalidate(key)` has returned, the key is gone: an
immediate `get(key)` returns absent, and after any further sequence of
cache mutations by any callers a `get(key)` observes either absent or a
value written by a mutation performed after the invalidation — never
the pre-invalidation value; in particular the message-send path
(app.py 476-477) leaves the user's `chat_history` cache key absent, so
a following chat-history read cannot observe the stale cached value. -/
theorem c3_invalidate_forces_miss :
    (∀ (s : CacheStore) (key : String),
        get_cache (invalidate_cache s key) key = none) ∧
    (∀ (s : CacheStore) (key : String) (ops : List CacheOp) (v : PyVal),
        get_cache (applyCacheOps (invalidate_cache s key) ops) key = some v →
        CacheOp.set key v ∈ ops) ∧
    (∀ (s : CacheStore) (user_id : String),
        get_cache (send_message_cache_effect user_id s)
            (chat_history_key user_id) = none) := by
  refine ⟨fun s key => dictFind_dictDelete_self s key, ?_,
    fun s user_id => dictFind_dictDelete_self s (chat_history_key user_id)⟩
  intro s key ops v h
  rcases get_cache_applyCacheOps ops (invalidate_cache s key) key v h with h1 | h1
  · rw [show get_cache (invalidate_cache s key) key = none from
      dictFind_dictDelete_self s key] at h1
    exact Option.noConfusion h1
  · exact h1

/-- C3 witness: invalidating a populated key, then writing it again,
yields the written value only because some post-invalidation write
produced it. -/
theorem c3_witness :
    CacheOp.set "k" (PyVal.intV 2) ∈ [CacheOp.set "k" (PyVal.intV 2)] :=
  c3_invalidate_forces_miss.2.1 [("k", PyVal.intV 1)] "k"
    [CacheOp.set "k" (PyVal.intV 2)] (PyVal.intV 2) rfl

/-- Counter value at the active (action, client, window) key after `n`
consecutive checks from the empty limiter state. -/
theorem repeat_checks_count (action client : String) (N W now : Nat) (n : Nat) :
    (dictFind ((repeat_checks ⟨[]⟩ action client N W now n).2.counters)
        (action, client, now / W)).getD 0 = n := by
  induction n with
  | zero => rfl
  | succ n ih =>
    show (dictFind ((check_rate_limit
        (repeat_checks ⟨[]⟩ action client N W now n).2
        action client N W now).2.counters) (action, client, now / W)).getD 0
      = n + 1
    rw [show (check_rate_limit (repeat_checks ⟨[]⟩ action client N W now n).2
        action client N W now).2.counters
      = dictSet ((repeat_checks ⟨[]⟩ action client N W now n).2.counters)
          (action, client, now / W)
          ((dictFind ((repeat_checks ⟨[]⟩ action client N W now n).2.counters)
              (action, client, now / W)).getD 0 + 1) from rfl]
    rw [dictFind_dictSet_self]
    simp [ih]

/-- Verdict of the `(n+1)`-th consecutive check from the empty limiter
state: allowed iff the post-increment count `n + 1` is within the
threshold. -/
theorem repeat_checks_verdict (action client : String) (N W now : Nat) (n : Nat) :
    (repeat_checks ⟨[]⟩ action client N W now (n + 1)).1 = decide (n + 1 ≤ N) := by
  show (check_rate_limit (repeat_checks ⟨[]⟩ action client N W now n).2
      action client N W now).1 = decide (n + 1 ≤ N)
  rw [show (check_rate_limit (repeat_checks ⟨[]⟩ action client N W now n).2
      action client N W now).1
    = decide ((dictFind ((repeat_checks ⟨[]⟩ action client N W now n).2.counters)
        (action, client, now / W)).getD 0 + 1 ≤ N) from rfl]
  rw [repeat_checks_count action client N W now n]

/-- Checks touch no counter key other than their own window key. -/
theorem repeat_checks_other_key (action client : String) (N W now : Nat)
    (n : Nat) (k : RLKey) (hk : k ≠ (action, client, now / W)) :
    dictFind ((repeat_checks ⟨[]⟩ action client N W now n).2.counters) k
      = none := by
  induction n with
  | zero => rfl
  | succ n ih =>
    show dictFind ((check_rate_limit
        (repeat_checks ⟨[]⟩ action client N W now n).2
        action client N W now).2.counters) k = none
    rw [show (check_rate_limit (repeat_checks ⟨[]⟩ action client N W now n).2
        action client N W now).2.counters
      = dictSet ((repeat_checks ⟨[]⟩ action client N W now n).2.counters)
          (action, client, now / W)
          ((dictFind ((repeat_checks ⟨[]⟩ action client N W now n).2.counters)
              (action, client, now / W)).getD 0 + 1) from rfl]
    rw [dictFind_dictSet_ne _ _ _ _ (Ne.symm hk)]
    exact ih

/-- C4: every rate-limit check increments the per-(action, client,
window) counter and is allowed iff the post-increment count is at most
`N`; consequently, from a fresh window, each of the first `N` checks is
allowed, the `(N+1)`-th check within the same window is rejected, and
the first check after the window rolls over is allowed again. -/
theorem c4_fixed_window_rate_limit (action client : String)
    (N W now now2 : Nat) (hN : 1 ≤ N) (hwin : now / W ≠ now2 / W) :
    (∀ st : RateLimiterState,
        (check_rate_limit st action client N W now).1
            = decide ((dictFind st.counters (action, client, now / W)).getD 0 + 1
                ≤ N) ∧
        dictFind ((check_rate_limit st action client N W now).2.counters)
            (action, client, now / W)
          = some ((dictFind st.counters (action, client, now / W)).getD 0 + 1)) ∧
    (∀ i : Nat, i + 1 ≤ N →
        (repeat_checks ⟨[]⟩ action client N W now (i + 1)).1 = true) ∧
    (repeat_checks ⟨[]⟩ action client N W now (N + 1)).1 = false ∧
    (check_rate_limit (repeat_checks ⟨[]⟩ action client N W now (N + 1)).2
        action client N W now2).1 = true := by
  refine ⟨fun st => ⟨rfl, dictFind_dictSet_self _ _ _⟩, ?_, ?_, ?_⟩
  · intro i hi
    rw [repeat_checks_verdict]
    exact decide_eq_true hi
  · rw [repeat_checks_verdict]
    have hns : ¬(N + 1 ≤ N) := Nat.not_succ_le_self N
    simp [hns]
  · rw [show (check_rate_limit (repeat_checks ⟨[]⟩ action client N W now (N + 1)).2
        action client N W now2).1
      = decide ((dictFind ((repeat_checks ⟨[]⟩ action client N W now (N + 1)).2.counters)
          (action, client, now2 / W)).getD 0 + 1 ≤ N) from rfl]
    rw [repeat_checks_other_key action client N W now (N + 1)
      (action, client, now2 / W)
      (fun h => hwin (congrArg (fun p => p.2.2) h).symm)]
    simpa using hN

/-- C4 witness: with threshold 2 and window 10, two checks at time 5
are allowed, the third is rejected, and a check at time 15 (next
window) is allowed again. -/
theorem c4_witness :
    (repeat_checks ⟨[]⟩ "login" "1.2.3.4" 2 10 5 2).1 = true ∧
    (repeat_checks ⟨[]⟩ "login" "1.2.3.4" 2 10 5 3).1 = false ∧
    (check_rate_limit (repeat_checks ⟨[]⟩ "login" "1.2.3.4" 2 10 5 3).2
        "login" "1.2.3.4" 2 10 15).1 = true := by
  have h := c4_fixed_window_rate_limit "login" "1.2.3.4" 2 10 5 15
    (by decide) (by decide)
  exact ⟨h.2.1 1 (by decide), h.2.2.1, h.2.2.2⟩

/-- C5: for every queue state, the retrieval order is a permutation of
the enqueued tasks sorted by priority rank first and enqueue sequence
number (FIFO) second; in particular enqueuing priorities
[low, high, medium] followed by [high] from the empty queue yields
retrieval order [high, high, medium, low], with the two high-priority
tasks in their enqueue order (sequence numbers 1 then 3). -/
theorem c5_priority_queue_order :
    (∀ q : TaskQueue,
        (retrieve_order q).Perm q.tasks ∧
          List.Sorted taskLE (retrieve_order q)) ∧
    (retrieve_order (enqueue_list TaskQueue.empty
        [(TaskType.video_processing, PyVal.noneV, TaskPriority.low),
         (TaskType.video_processing, PyVal.noneV, TaskPriority.high),
         (TaskType.video_analysis, PyVal.noneV, TaskPriority.medium),
         (TaskType.video_processing, PyVal.noneV, TaskPriority.high)])).map
        Task.priority
      = [TaskPriority.high, TaskPriority.high, TaskPriority.medium,
         TaskPriority.low] ∧
    (retrieve_order (enqueue_list TaskQueue.empty
        [(TaskType.video_processing, PyVal.noneV, TaskPriority.low),
         (TaskType.video_processing, PyVal.noneV, TaskPriority.high),
         (TaskType.video_analysis, PyVal.noneV, TaskPriority.medium),
         (TaskType.video_processing, PyVal.noneV, TaskPriority.high)])).map
        Task.seq
      = [1, 3, 2, 0] := by
  refine ⟨fun q => ⟨List.perm_insertionSort taskLE q.tasks,
    List.sorted_insertionSort taskLE q.tasks⟩, ?_, ?_⟩ <;> rfl

end BFCM
